import Mathlib

/-!
Verification of the custom training-step coordinator in
`src/yuxin_numpy/mnist-convnet.py` (`NumpyTrainer`).

Tensors are modelled as flat lists of rationals (exact arithmetic in
place of IEEE floats, as the spec states the update rule algebraically).
The trainer state carries, per the Python object:
  * `stores`      — one Parameter Store per replica (`self.all_vars`,
                    indexed replica × parameter), holding current values;
  * `var_values`  — the host-resident snapshot (`self.var_values`),
                    `none` before warm-up;
  * `acc_values`  — the momentum accumulator (`self.acc_values`),
                    `none` before first use;
  * `step_count`  — the global `step_count` counter.
Python exceptions (IndexError from `grad_values[i]` / `acc_values[i]`)
are modelled by an `Option String` error component; on error the
partially mutated host state is returned and `_set_values` is skipped,
exactly as an exception propagating out of `run_step` would leave it.
-/

abbrev Tensor := List ℚ

/-- numpy `np.zeros_like(g)`: a zero tensor of the same shape as `g`. -/
def np_zeros_like (g : Tensor) : Tensor := g.map (fun _ => 0)

/-- numpy elementwise scalar multiplication `c * t`. -/
def scaleT (c : ℚ) (t : Tensor) : Tensor := t.map (fun x => c * x)

/-- numpy elementwise addition `a + b` (same-shape operands). -/
def addT (a b : Tensor) : Tensor := List.zipWith (fun x y => x + y) a b

/-- numpy elementwise in-place subtraction `a -= b` (same-shape operands). -/
def subT (a b : Tensor) : Tensor := List.zipWith (fun x y => x - y) a b

/-- Python truthiness of `self.acc_values` in `if not self.acc_values:`:
`None` and the empty list are falsy, a non-empty list is truthy. -/
def pyTruthy (x : Option (List Tensor)) : Bool :=
  match x with
  | none => false
  | some [] => false
  | some (_ :: _) => true

/-- State of `NumpyTrainer` plus the global `step_count`. -/
structure TrainerState where
  stores : List (List Tensor)
  var_values : Option (List Tensor)
  acc_values : Option (List Tensor)
  step_count : Nat
deriving DecidableEq, Repr

/-- Python `_get_values`: `self.var_values = self.sess.run(self.all_vars[0])`
— pull replica 0's current Parameter Store into the host snapshot. -/
def get_values (s : TrainerState) : TrainerState :=
  { s with var_values := some (s.stores.headD []) }

/-- Python `zip(self.var_values, all_vars)` followed by `var.load(val)`:
overwrite the store's tensors pairwise; `zip` stops at the shorter
sequence, leaving any surplus store entries untouched. -/
def zipLoad : List Tensor → List Tensor → List Tensor
  | v :: vs, _ :: ss => v :: zipLoad vs ss
  | [], ss => ss
  | _ :: _, [] => []

/-- Python `_set_values`: broadcast the host snapshot into every
replica's Parameter Store. -/
def set_values (s : TrainerState) : TrainerState :=
  { s with stores := s.stores.map (fun st => zipLoad (s.var_values.getD []) st) }

/-- The update loop of `run_step`:

    for i in range(len(self.var_values)):
      v = self.var_values[i]
      g = grad_values[i]
      self.acc_values[i] = self.acc_values[i]*momentum+g
      v -= lr*self.acc_values[i]

Returns the mutated `var_values`, the mutated `acc_values`, and
`some msg` when an IndexError was raised (grad list checked first, as
`grad_values[i]` is evaluated before `self.acc_values[i]`); entries past
the point of the error, and list entries beyond `len(var_values)`, are
left as they were. -/
def updateLoop (lr momentum : ℚ) :
    List Tensor → List Tensor → List Tensor →
    List Tensor × List Tensor × Option String
  | [], _gs, accs => ([], accs, none)
  | v :: vs, [], accs => (v :: vs, accs, some "IndexError: list index out of range")
  | v :: vs, _g :: _gs, [] => (v :: vs, [], some "IndexError: list index out of range")
  | v :: vs, g :: gs, a :: accs =>
      let a' := addT (scaleT momentum a) g
      let v' := subT v (scaleT lr a')
      let r := updateLoop lr momentum vs gs accs
      (v' :: r.1, a' :: r.2.1, r.2.2)

/-- Modelled from the spec: the Telemetry Sink's `emit_scalar` is
fire-and-forget (§6); when the sink is unavailable the metric for that
sample is dropped and nothing is raised (§7 TelemetrySinkUnavailable).
The sink's own code is external to this repository; `sinkOk` is whether
the sink accepted the sample. -/
def emit_scalar (sinkOk : Bool) (name : String) (value : ℚ) :
    Option (String × ℚ) :=
  if sinkOk then some (name, value) else none

/-- Python `run_step`: one coordinator step.  Inputs beyond the state are the
per-replica gradient results of the barrier (`gradsAll`, one GradientSet
per replica; the code only fetches `self.all_grads`, which
`_setup_graph` built from `self._builder.grads[0]`, i.e. replica 0),
the measured wall-clock `duration` of the barrier, and the sink
availability.  Returns the new state, the telemetry sample actually
emitted (if any), and the propagated exception (if any). -/
def run_step (gradsAll : List (List Tensor)) (duration : ℚ) (sinkOk : Bool)
    (s : TrainerState) : TrainerState × Option (String × ℚ) × Option String :=
  let s := { s with step_count := s.step_count + 1 }
  let s := if s.var_values.isNone then get_values s else s
  let grad_values := gradsAll.headD []
  let metric := if s.step_count % 10 == 0
                then emit_scalar sinkOk "step_time" duration else none
  let lr : ℚ := 0.01
  let momentum : ℚ := 0.9
  let s := if pyTruthy s.acc_values then s
           else { s with acc_values := some (grad_values.map np_zeros_like) }
  let r := updateLoop lr momentum (s.var_values.getD []) grad_values
             (s.acc_values.getD [])
  let s := { s with var_values := some r.1, acc_values := some r.2.1 }
  match r.2.2 with
  | some e => (s, metric, some e)
  | none => (set_values s, metric, none)

/-- A whole run: feed `run_step` a sequence of per-step inputs
(per-replica gradients, barrier duration, sink availability), stopping
after the first step that raises (fatal errors terminate the run).
Returns the per-step records `(state, metric, error)`. -/
def runSteps : List (List (List Tensor) × ℚ × Bool) → TrainerState →
    List (TrainerState × Option (String × ℚ) × Option String)
  | [], _ => []
  | (g, d, b) :: rest, s =>
      let r := run_step g d b s
      match r.2.2 with
      | some _ => [r]
      | none => r :: runSteps rest r.1

/-- The host snapshot `run_step` works with on this step: the stored
snapshot, or replica 0's store when still `None` (warm-up). -/
def effVars (s : TrainerState) : List Tensor :=
  match s.var_values with
  | none => s.stores.headD []
  | some vs => vs

/-- The accumulator list the update loop works with on this step: the
stored one when truthy, otherwise freshly created zero buffers shaped
like the received gradients (line 169–170 of the source). -/
def effAcc (s : TrainerState) (grad_values : List Tensor) : List Tensor :=
  if pyTruthy s.acc_values then s.acc_values.getD []
  else grad_values.map np_zeros_like

/-- The telemetry sample a step starting from `s` produces. -/
def stepMetric (sinkOk : Bool) (duration : ℚ) (s : TrainerState) :
    Option (String × ℚ) :=
  if (s.step_count + 1) % 10 == 0 then emit_scalar sinkOk "step_time" duration
  else none

/-- The update-loop result of a step starting from `s`. -/
def stepResult (gradsAll : List (List Tensor)) (s : TrainerState) :
    List Tensor × List Tensor × Option String :=
  updateLoop 0.01 0.9 (effVars s) (gradsAll.headD [])
    (effAcc s (gradsAll.headD []))

lemma run_step_unfold (gradsAll : List (List Tensor)) (d : ℚ) (b : Bool)
    (s : TrainerState) :
    run_step gradsAll d b s =
      match (stepResult gradsAll s).2.2 with
      | some e =>
          (⟨s.stores, some (stepResult gradsAll s).1,
            some (stepResult gradsAll s).2.1, s.step_count + 1⟩,
           stepMetric b d s, some e)
      | none =>
          (⟨s.stores.map (fun st => zipLoad (stepResult gradsAll s).1 st),
            some (stepResult gradsAll s).1,
            some (stepResult gradsAll s).2.1, s.step_count + 1⟩,
           stepMetric b d s, none) := by
  unfold run_step stepResult stepMetric effAcc effVars
  cases hv : s.var_values with
  | none =>
      simp only [get_values, set_values, hv, Option.isNone_none, if_true]
      cases hacc : pyTruthy s.acc_values <;>
        cases hr : (updateLoop 0.01 0.9 (s.stores.headD [])
          (gradsAll.headD [])
          (if pyTruthy s.acc_values then s.acc_values.getD []
           else (gradsAll.headD []).map np_zeros_like)).2.2 <;>
        simp_all
  | some vs =>
      simp only [get_values, set_values, hv, Option.isNone_some, if_false,
        Bool.false_eq_true]
      cases hacc : pyTruthy s.acc_values <;>
        cases hr : (updateLoop 0.01 0.9 vs (gradsAll.headD [])
          (if pyTruthy s.acc_values then s.acc_values.getD []
           else (gradsAll.headD []).map np_zeros_like)).2.2 <;>
        simp_all

lemma updateLoop_fst_length (lr m : ℚ) (vs gs accs : List Tensor) :
    (updateLoop lr m vs gs accs).1.length = vs.length := by
  induction vs generalizing gs accs with
  | nil => simp [updateLoop]
  | cons v vs ih =>
      cases gs with
      | nil => simp [updateLoop]
      | cons g gs =>
          cases accs with
          | nil => simp [updateLoop]
          | cons a accs => simp [updateLoop, ih]

lemma zipLoad_eq_of_length (vals st : List Tensor) (h : vals.length = st.length) :
    zipLoad vals st = vals := by
  induction vals generalizing st with
  | nil =>
      cases st with
      | nil => rfl
      | cons _ _ => simp at h
  | cons v vs ih =>
      cases st with
      | nil => simp at h
      | cons t ts =>
          simp only [List.length_cons, Nat.add_right_cancel_iff] at h
          simp [zipLoad, ih ts h]

lemma zipLoad_nil (st : List Tensor) : zipLoad [] st = st := by
  cases st <;> rfl

lemma scaleT_getD (c : ℚ) (t : Tensor) (j : Nat) (hj : j < t.length) :
    (scaleT c t).getD j 0 = c * t.getD j 0 := by
  have hj' : j < (scaleT c t).length := by simpa [scaleT] using hj
  rw [List.getD_eq_getElem _ _ hj', List.getD_eq_getElem _ _ hj]
  simp [scaleT]

lemma addT_getD (a b : Tensor) (j : Nat) (ha : j < a.length)
    (hb : j < b.length) :
    (addT a b).getD j 0 = a.getD j 0 + b.getD j 0 := by
  have hj' : j < (addT a b).length := by
    simp [addT, List.length_zipWith]; omega
  rw [List.getD_eq_getElem _ _ hj', List.getD_eq_getElem _ _ ha,
    List.getD_eq_getElem _ _ hb]
  simp [addT]

lemma subT_getD (a b : Tensor) (j : Nat) (ha : j < a.length)
    (hb : j < b.length) :
    (subT a b).getD j 0 = a.getD j 0 - b.getD j 0 := by
  have hj' : j < (subT a b).length := by
    simp [subT, List.length_zipWith]; omega
  rw [List.getD_eq_getElem _ _ hj', List.getD_eq_getElem _ _ ha,
    List.getD_eq_getElem _ _ hb]
  simp [subT]

lemma np_zeros_like_getD (g : Tensor) (j : Nat) :
    (np_zeros_like g).getD j 0 = 0 := by
  by_cases hj : j < g.length
  · have hj' : j < (np_zeros_like g).length := by simpa [np_zeros_like] using hj
    rw [List.getD_eq_getElem _ _ hj']
    simp [np_zeros_like]
  · have hj' : ¬ j < (np_zeros_like g).length := by
      simpa [np_zeros_like] using hj
    rw [List.getD_eq_default]
    omega

lemma np_zeros_like_length (g : Tensor) :
    (np_zeros_like g).length = g.length := by
  simp [np_zeros_like]

lemma updateLoop_spec (lr m : ℚ) (vs gs accs : List Tensor)
    (hg : vs.length ≤ gs.length) (ha : vs.length ≤ accs.length) :
    (updateLoop lr m vs gs accs).2.2 = none ∧
    ∀ i, i < vs.length →
      (updateLoop lr m vs gs accs).2.1.getD i [] =
        addT (scaleT m (accs.getD i [])) (gs.getD i []) ∧
      (updateLoop lr m vs gs accs).1.getD i [] =
        subT (vs.getD i [])
          (scaleT lr ((updateLoop lr m vs gs accs).2.1.getD i [])) := by
  induction vs generalizing gs accs with
  | nil => simp [updateLoop]
  | cons v vs ih =>
      cases gs with
      | nil => simp at hg
      | cons g gs =>
          cases accs with
          | nil => simp at ha
          | cons a accs =>
              simp only [List.length_cons, Nat.add_le_add_iff_right] at hg ha
              obtain ⟨hnone, hidx⟩ := ih gs accs hg ha
              refine ⟨by simp [updateLoop, hnone], ?_⟩
              intro i hi
              cases i with
              | zero => simp [updateLoop]
              | succ i =>
                  simp only [List.length_cons, Nat.succ_lt_succ_iff] at hi
                  obtain ⟨h1, h2⟩ := hidx i hi
                  simp only [updateLoop, List.getD_cons_succ]
                  exact ⟨h1, h2⟩

lemma updateLoop_err (lr m : ℚ) (vs gs accs : List Tensor)
    (h : gs.length < vs.length ∨ accs.length < vs.length) :
    (updateLoop lr m vs gs accs).2.2.isSome = true := by
  induction vs generalizing gs accs with
  | nil => simp at h
  | cons v vs ih =>
      cases gs with
      | nil => simp [updateLoop]
      | cons g gs =>
          cases accs with
          | nil => simp [updateLoop]
          | cons a accs =>
              simp only [List.length_cons, Nat.add_lt_add_iff_right] at h
              simpa [updateLoop] using ih gs accs h

lemma run_step_err (gradsAll : List (List Tensor)) (d : ℚ) (b : Bool)
    (s : TrainerState) :
    (run_step gradsAll d b s).2.2 = (stepResult gradsAll s).2.2 := by
  rw [run_step_unfold]
  cases h : (stepResult gradsAll s).2.2 <;> simp [h]

lemma run_step_acc (gradsAll : List (List Tensor)) (d : ℚ) (b : Bool)
    (s : TrainerState) :
    (run_step gradsAll d b s).1.acc_values = some (stepResult gradsAll s).2.1 := by
  rw [run_step_unfold]
  cases h : (stepResult gradsAll s).2.2 <;> simp [h]

lemma run_step_var (gradsAll : List (List Tensor)) (d : ℚ) (b : Bool)
    (s : TrainerState) :
    (run_step gradsAll d b s).1.var_values = some (stepResult gradsAll s).1 := by
  rw [run_step_unfold]
  cases h : (stepResult gradsAll s).2.2 <;> simp [h]

lemma run_step_count (gradsAll : List (List Tensor)) (d : ℚ) (b : Bool)
    (s : TrainerState) :
    (run_step gradsAll d b s).1.step_count = s.step_count + 1 := by
  rw [run_step_unfold]
  cases h : (stepResult gradsAll s).2.2 <;> simp [h]

lemma run_step_metric (gradsAll : List (List Tensor)) (d : ℚ) (b : Bool)
    (s : TrainerState) :
    (run_step gradsAll d b s).2.1 = stepMetric b d s := by
  rw [run_step_unfold]
  cases h : (stepResult gradsAll s).2.2 <;> simp [h]

lemma run_step_stores_ok (gradsAll : List (List Tensor)) (d : ℚ) (b : Bool)
    (s : TrainerState) (h : (stepResult gradsAll s).2.2 = none) :
    (run_step gradsAll d b s).1.stores =
      s.stores.map (fun st => zipLoad (stepResult gradsAll s).1 st) := by
  rw [run_step_unfold, h]

lemma run_step_stores_err (gradsAll : List (List Tensor)) (d : ℚ) (b : Bool)
    (s : TrainerState) (h : (stepResult gradsAll s).2.2.isSome = true) :
    (run_step gradsAll d b s).1.stores = s.stores := by
  rw [run_step_unfold]
  cases he : (stepResult gradsAll s).2.2 with
  | none => rw [he] at h; simp at h
  | some e => simp [he]

lemma run_step_state_indep (gradsAll : List (List Tensor)) (d d' : ℚ)
    (b b' : Bool) (s : TrainerState) :
    (run_step gradsAll d b s).1 = (run_step gradsAll d' b' s).1 ∧
    (run_step gradsAll d b s).2.2 = (run_step gradsAll d' b' s).2.2 := by
  rw [run_step_unfold gradsAll d b s, run_step_unfold gradsAll d' b' s]
  cases h : (stepResult gradsAll s).2.2 <;> simp [h]

/-- C1: for every step and every parameter index `i`, the coordinator's
update satisfies `accumulator_after[i] = accumulator_before[i] * momentum
+ gradient[i]` and `parameter_after[i] = parameter_before[i] -
learning_rate * accumulator_after[i]`, element-wise, with the fixed
constants `learning_rate = 0.01` and `momentum = 0.9`.
`accumulator_before` is the accumulator entering the loop (`effAcc`,
all-zero buffers at the first step) and `parameter_before` the host
snapshot the step works with (`effVars`). -/
theorem update_rule_elementwise (gradsAll : List (List Tensor)) (d : ℚ)
    (b : Bool) (s : TrainerState) (i j : Nat)
    (hg : (effVars s).length ≤ (gradsAll.headD []).length)
    (ha : (effVars s).length ≤ (effAcc s (gradsAll.headD [])).length)
    (hi : i < (effVars s).length)
    (hj : j < ((effVars s).getD i []).length)
    (hjg : j < ((gradsAll.headD []).getD i []).length)
    (hja : j < ((effAcc s (gradsAll.headD [])).getD i []).length) :
    (run_step gradsAll d b s).2.2 = none ∧
    (((run_step gradsAll d b s).1.acc_values.getD []).getD i []).getD j 0 =
      ((effAcc s (gradsAll.headD [])).getD i []).getD j 0 * (0.9 : ℚ) +
        ((gradsAll.headD []).getD i []).getD j 0 ∧
    (((run_step gradsAll d b s).1.var_values.getD []).getD i []).getD j 0 =
      ((effVars s).getD i []).getD j 0 -
        (0.01 : ℚ) *
          (((run_step gradsAll d b s).1.acc_values.getD []).getD i []).getD j 0 := by
  obtain ⟨hnone, hidx⟩ := updateLoop_spec (0.01 : ℚ) (0.9 : ℚ) (effVars s)
    (gradsAll.headD []) (effAcc s (gradsAll.headD [])) hg ha
  obtain ⟨h1, h2⟩ := hidx i hi
  have h1' : (stepResult gradsAll s).2.1.getD i [] =
      addT (scaleT (0.9 : ℚ) ((effAcc s (gradsAll.headD [])).getD i []))
        ((gradsAll.headD []).getD i []) := h1
  have h2' : (stepResult gradsAll s).1.getD i [] =
      subT ((effVars s).getD i [])
        (scaleT (0.01 : ℚ) ((stepResult gradsAll s).2.1.getD i [])) := h2
  have hacc : (run_step gradsAll d b s).1.acc_values.getD [] =
      (stepResult gradsAll s).2.1 := by rw [run_step_acc]; rfl
  have hvar : (run_step gradsAll d b s).1.var_values.getD [] =
      (stepResult gradsAll s).1 := by rw [run_step_var]; rfl
  have hlen : j < ((stepResult gradsAll s).2.1.getD i []).length := by
    rw [h1']
    simp only [addT, scaleT, List.length_zipWith, List.length_map]
    omega
  refine ⟨by rw [run_step_err]; exact hnone, ?_, ?_⟩
  · rw [hacc, h1', addT_getD _ _ j (by simpa [scaleT] using hja) hjg,
      scaleT_getD _ _ j hja]
    ring
  · rw [hvar, hacc, h2', subT_getD _ _ j hj (by simpa [scaleT] using hlen),
      scaleT_getD _ _ j hlen]

/-- Witness for C1 at a concrete input: one replica whose store holds one
scalar parameter `1`, snapshot `[[1]]`, accumulator `[[2]]`, gradient
`[[1]]`. -/
theorem update_rule_elementwise_witness :
    ((effVars (⟨[[[1]]], some [[1]], some [[2]], 0⟩ : TrainerState)).length ≤
        (([[[1]]] : List (List Tensor)).headD []).length ∧
      (effVars (⟨[[[1]]], some [[1]], some [[2]], 0⟩ : TrainerState)).length ≤
        (effAcc (⟨[[[1]]], some [[1]], some [[2]], 0⟩ : TrainerState)
          (([[[1]]] : List (List Tensor)).headD [])).length ∧
      0 < (effVars (⟨[[[1]]], some [[1]], some [[2]], 0⟩ : TrainerState)).length ∧
      0 < ((effVars (⟨[[[1]]], some [[1]], some [[2]], 0⟩ : TrainerState)).getD 0 []).length ∧
      0 < ((([[[1]]] : List (List Tensor)).headD []).getD 0 []).length ∧
      0 < ((effAcc (⟨[[[1]]], some [[1]], some [[2]], 0⟩ : TrainerState)
          (([[[1]]] : List (List Tensor)).headD [])).getD 0 []).length) ∧
    ((run_step [[[1]]] 0 true ⟨[[[1]]], some [[1]], some [[2]], 0⟩).2.2 = none ∧
      (((run_step [[[1]]] 0 true ⟨[[[1]]], some [[1]], some [[2]], 0⟩).1.acc_values.getD
            []).getD 0 []).getD 0 0 =
        ((effAcc (⟨[[[1]]], some [[1]], some [[2]], 0⟩ : TrainerState)
              (([[[1]]] : List (List Tensor)).headD [])).getD 0 []).getD 0 0 * (0.9 : ℚ) +
          ((([[[1]]] : List (List Tensor)).headD []).getD 0 []).getD 0 0 ∧
      (((run_step [[[1]]] 0 true ⟨[[[1]]], some [[1]], some [[2]], 0⟩).1.var_values.getD
            []).getD 0 []).getD 0 0 =
        ((effVars (⟨[[[1]]], some [[1]], some [[2]], 0⟩ : TrainerState)).getD 0 []).getD 0 0 -
          (0.01 : ℚ) *
            (((run_step [[[1]]] 0 true
                  ⟨[[[1]]], some [[1]], some [[2]], 0⟩).1.acc_values.getD []).getD 0
                []).getD 0 0) :=
  ⟨⟨by decide, by decide, by decide, by decide, by decide, by decide⟩,
    update_rule_elementwise [[[1]]] 0 true ⟨[[[1]]], some [[1]], some [[2]], 0⟩ 0 0
      (by decide) (by decide) (by decide) (by decide) (by decide) (by decide)⟩

/-- C7: with `momentum = 0`, the per-step update loop reduces to plain
gradient descent: for every parameter index `i` and element `j`,
`parameter_after[i][j] = parameter_before[i][j] - learning_rate *
gradient[i][j]`. -/
theorem momentum_zero_plain_gd (lr : ℚ) (vs gs accs : List Tensor)
    (hg : vs.length ≤ gs.length) (ha : vs.length ≤ accs.length)
    (i j : Nat) (hi : i < vs.length)
    (hj : j < (vs.getD i []).length)
    (hjg : j < (gs.getD i []).length) (hja : j < (accs.getD i []).length) :
    ((updateLoop lr 0 vs gs accs).1.getD i []).getD j 0 =
      (vs.getD i []).getD j 0 - lr * (gs.getD i []).getD j 0 := by
  obtain ⟨hnone, hidx⟩ := updateLoop_spec lr 0 vs gs accs hg ha
  obtain ⟨h1, h2⟩ := hidx i hi
  have hlen : j < ((updateLoop lr 0 vs gs accs).2.1.getD i []).length := by
    rw [h1]
    simp only [addT, scaleT, List.length_zipWith, List.length_map]
    omega
  rw [h2, subT_getD _ _ j hj (by simpa [scaleT] using hlen),
    scaleT_getD _ _ j hlen, h1,
    addT_getD _ _ j (by simpa [scaleT] using hja) hjg, scaleT_getD _ _ j hja]
  ring

/-- Witness for C7 at a concrete input: `lr = 2`, one parameter `[3]`,
gradient `[5]`, accumulator `[7]`. -/
theorem momentum_zero_plain_gd_witness :
    (([[3]] : List Tensor).length ≤ ([[5]] : List Tensor).length ∧
      ([[3]] : List Tensor).length ≤ ([[7]] : List Tensor).length ∧
      0 < ([[3]] : List Tensor).length ∧
      0 < (([[3]] : List Tensor).getD 0 []).length ∧
      0 < (([[5]] : List Tensor).getD 0 []).length ∧
      0 < (([[7]] : List Tensor).getD 0 []).length) ∧
    ((updateLoop 2 0 [[3]] [[5]] [[7]]).1.getD 0 []).getD 0 0 =
      (([[3]] : List Tensor).getD 0 []).getD 0 0 -
        2 * (([[5]] : List Tensor).getD 0 []).getD 0 0 :=
  ⟨⟨by decide, by decide, by decide, by decide, by decide, by decide⟩,
    momentum_zero_plain_gd 2 [[3]] [[5]] [[7]] (by decide) (by decide) 0 0
      (by decide) (by decide) (by decide) (by decide)⟩

/-- C2: after every completed step (no propagated error), every
replica's Parameter Store holds exactly the host snapshot written by the
broadcast — hence all replicas are element-wise identical to each other
— for any number of replicas, provided each store has the registered
number of Parameters (spec §3 invariant: collections have the same
length, fixed at initialization). -/
theorem replica_convergence (gradsAll : List (List Tensor)) (d : ℚ)
    (b : Bool) (s : TrainerState)
    (hlen : ∀ st ∈ s.stores, st.length = (effVars s).length)
    (hok : (run_step gradsAll d b s).2.2 = none) :
    ∀ st ∈ (run_step gradsAll d b s).1.stores,
      (run_step gradsAll d b s).1.var_values = some st := by
  have he : (stepResult gradsAll s).2.2 = none := by
    rw [← run_step_err gradsAll d b s]; exact hok
  rw [run_step_stores_ok gradsAll d b s he]
  intro st hst
  obtain ⟨st0, hst0, rfl⟩ := List.mem_map.1 hst
  have hl : (stepResult gradsAll s).1.length = st0.length := by
    rw [show (stepResult gradsAll s).1.length = (effVars s).length from
      updateLoop_fst_length (0.01 : ℚ) (0.9 : ℚ) (effVars s) (gradsAll.headD [])
        (effAcc s (gradsAll.headD []))]
    exact (hlen st0 hst0).symm
  rw [run_step_var, zipLoad_eq_of_length _ _ hl]

/-- Witness for C2 at a concrete input: two replicas with stores
`[[1]]` and `[[3]]`, warmed-up snapshot `[[1]]`, gradient `[[2]]`. -/
theorem replica_convergence_witness :
    ((∀ st ∈ (⟨[[[1]], [[3]]], some [[1]], none, 0⟩ : TrainerState).stores,
        st.length =
          (effVars (⟨[[[1]], [[3]]], some [[1]], none, 0⟩ : TrainerState)).length) ∧
      (run_step [[[2]]] 0 true ⟨[[[1]], [[3]]], some [[1]], none, 0⟩).2.2 = none) ∧
    ∀ st ∈ (run_step [[[2]]] 0 true ⟨[[[1]], [[3]]], some [[1]], none, 0⟩).1.stores,
      (run_step [[[2]]] 0 true ⟨[[[1]], [[3]]], some [[1]], none, 0⟩).1.var_values =
        some st :=
  ⟨⟨by decide, by decide⟩,
    replica_convergence [[[2]]] 0 true ⟨[[[1]], [[3]]], some [[1]], none, 0⟩
      (by decide) (by decide)⟩

/-- C3: only replica 0's GradientSet influences the step: two gradient
barrier results that agree on replica 0's entry yield literally the same
`run_step` outcome (state, telemetry, and error), whatever the other
replicas produced and however many replicas there are. -/
theorem only_replica0_grads (gradsAll gradsAll' : List (List Tensor))
    (d : ℚ) (b : Bool) (s : TrainerState)
    (h : gradsAll.head? = gradsAll'.head?) :
    run_step gradsAll d b s = run_step gradsAll' d b s := by
  have hd : gradsAll.headD [] = gradsAll'.headD [] := by
    rw [List.headD_eq_head?, List.headD_eq_head?, h]
  have hsr : stepResult gradsAll s = stepResult gradsAll' s := by
    unfold stepResult
    rw [hd]
  rw [run_step_unfold gradsAll d b s, run_step_unfold gradsAll' d b s, hsr]

/-- Witness for C3 at a concrete input: a one-replica barrier result
versus a three-replica one with the same replica-0 entry but different,
nonzero gradients on the extra replicas. -/
theorem only_replica0_grads_witness :
    (([[[2]]] : List (List Tensor)).head? =
        ([[[2]], [[5]], [[7]]] : List (List Tensor)).head?) ∧
    run_step [[[2]]] 0 true ⟨[[[1]]], some [[1]], none, 0⟩ =
      run_step [[[2]], [[5]], [[7]]] 0 true ⟨[[[1]]], some [[1]], none, 0⟩ :=
  ⟨by decide,
    only_replica0_grads [[[2]]] [[[2]], [[5]], [[7]]] 0 true
      ⟨[[[1]]], some [[1]], none, 0⟩ (by decide)⟩

/-- C5: at the first step the accumulator is created at first use as
zero buffers matching the received gradients: a step from an absent
(`None`) accumulator behaves identically to a step whose accumulator had
been set to `np.zeros_like` of each gradient; and those buffers are
genuinely all-zero with the gradients' shapes. -/
theorem first_step_acc_zero (gradsAll : List (List Tensor)) (d : ℚ)
    (b : Bool) (s : TrainerState) (hacc : s.acc_values = none) :
    run_step gradsAll d b s =
      run_step gradsAll d b
        { s with acc_values := some ((gradsAll.headD []).map np_zeros_like) } ∧
    ∀ g : Tensor, (np_zeros_like g).length = g.length ∧
      ∀ j, (np_zeros_like g).getD j 0 = 0 := by
  refine ⟨?_, fun g => ⟨np_zeros_like_length g, fun j => np_zeros_like_getD g j⟩⟩
  have hsr : stepResult gradsAll s =
      stepResult gradsAll
        { s with acc_values := some ((gradsAll.headD []).map np_zeros_like) } := by
    unfold stepResult effAcc effVars
    cases hg : gradsAll.headD [] with
    | nil => simp [hacc, pyTruthy]
    | cons t ts => simp [hacc, pyTruthy]
  rw [run_step_unfold gradsAll d b s,
    run_step_unfold gradsAll d b
      { s with acc_values := some ((gradsAll.headD []).map np_zeros_like) }, hsr]
  rfl

/-- Witness for C5 at a concrete input: absent accumulator, one
parameter `[1]`, gradient `[[2]]`. -/
theorem first_step_acc_zero_witness :
    ((⟨[[[1]]], some [[1]], none, 0⟩ : TrainerState).acc_values = none) ∧
    (run_step [[[2]]] 0 true ⟨[[[1]]], some [[1]], none, 0⟩ =
      run_step [[[2]]] 0 true
        { (⟨[[[1]]], some [[1]], none, 0⟩ : TrainerState) with
          acc_values := some ((([[[2]]] : List (List Tensor)).headD []).map np_zeros_like) } ∧
    ∀ g : Tensor, (np_zeros_like g).length = g.length ∧
      ∀ j, (np_zeros_like g).getD j 0 = 0) :=
  ⟨by decide,
    first_step_acc_zero [[[2]]] 0 true ⟨[[[1]]], some [[1]], none, 0⟩ (by decide)⟩

/-- C4 counterexample: one registered Parameter (`var_values = [[1]]`)
but a replica-0 gradient list of length 2.  The length mismatch raises
no error at all: the step completes (`none` error), the extra gradient
is silently truncated, and the Parameter is mutated and broadcast
(store `[[5]]` becomes `[[49/50]]`) — contradicting the claim that any
such mismatch surfaces as a fatal error before any Parameter is mutated
and is never silently truncated. -/
theorem mismatch_not_fatal_cex :
    run_step [[[2], [3]]] 0 true ⟨[[[5]]], some [[1]], none, 0⟩ =
      (⟨[[[49/50]]], some [[49/50]], some [[2], [0]], 1⟩, none, none) := by
  simp only [run_step, get_values, set_values, updateLoop, addT, scaleT, subT,
    np_zeros_like, pyTruthy, zipLoad, emit_scalar, List.map, List.zipWith,
    List.headD, Option.getD, Option.isNone]
  norm_num

/-- C4 (amended): only a gradient or accumulator list *shorter* than the
registered Parameter list is fatal: the step raises an IndexError and no
replica Parameter Store is written for that step.  A *longer* gradient
or accumulator list is silently truncated and the step completes without
error (see the counterexample). -/
theorem mismatch_short_fatal (gradsAll : List (List Tensor)) (d : ℚ)
    (b : Bool) (s : TrainerState)
    (h : (gradsAll.headD []).length < (effVars s).length ∨
      (effAcc s (gradsAll.headD [])).length < (effVars s).length) :
    (run_step gradsAll d b s).2.2.isSome = true ∧
    (run_step gradsAll d b s).1.stores = s.stores := by
  have he : (stepResult gradsAll s).2.2.isSome = true :=
    updateLoop_err (0.01 : ℚ) (0.9 : ℚ) (effVars s) (gradsAll.headD [])
      (effAcc s (gradsAll.headD [])) h
  exact ⟨by rw [run_step_err]; exact he, run_step_stores_err gradsAll d b s he⟩

/-- Witness for the amended C4 at a concrete input: two registered
Parameters but a replica-0 gradient list of length 1. -/
theorem mismatch_short_fatal_witness :
    ((([[[3]]] : List (List Tensor)).headD []).length <
        (effVars (⟨[[[5], [6]]], some [[1], [2]], some [[0], [0]], 0⟩ :
          TrainerState)).length ∨
      (effAcc (⟨[[[5], [6]]], some [[1], [2]], some [[0], [0]], 0⟩ : TrainerState)
          (([[[3]]] : List (List Tensor)).headD [])).length <
        (effVars (⟨[[[5], [6]]], some [[1], [2]], some [[0], [0]], 0⟩ :
          TrainerState)).length) ∧
    ((run_step [[[3]]] 0 true
        ⟨[[[5], [6]]], some [[1], [2]], some [[0], [0]], 0⟩).2.2.isSome = true ∧
      (run_step [[[3]]] 0 true
          ⟨[[[5], [6]]], some [[1], [2]], some [[0], [0]], 0⟩).1.stores =
        [[[5], [6]]]) :=
  ⟨by decide,
    mismatch_short_fatal [[[3]]] 0 true
      ⟨[[[5], [6]]], some [[1], [2]], some [[0], [0]], 0⟩ (by decide)⟩

/-- C9: a telemetry-sink failure is non-fatal and invisible to the
numeric state: a step with the sink unavailable produces exactly the
state (accumulator updated, parameters broadcast) and exactly the error
outcome of the same step with the sink available, and merely drops that
sample's metric. -/
theorem telemetry_nonfatal (gradsAll : List (List Tensor)) (d : ℚ)
    (s : TrainerState) :
    (run_step gradsAll d false s).1 = (run_step gradsAll d true s).1 ∧
    (run_step gradsAll d false s).2.2 = (run_step gradsAll d true s).2.2 ∧
    (run_step gradsAll d false s).2.1 = none := by
  obtain ⟨h1, h2⟩ := run_step_state_indep gradsAll d d false true s
  refine ⟨h1, h2, ?_⟩
  rw [run_step_metric]
  unfold stepMetric emit_scalar
  cases hc : ((s.step_count + 1) % 10 == 0) <;> simp [hc]

/-- C10 (implicit): with an empty set of trainable parameters the
accumulator check `if not self.acc_values` keeps treating the (empty)
accumulator as uninitialized, so it is re-created as an empty list on
every step — and the step completes normally (no error), leaving every
replica's store untouched. -/
theorem empty_params_step (gradsAll : List (List Tensor)) (d : ℚ) (b : Bool)
    (s : TrainerState) (hv : s.var_values = some [])
    (hg : gradsAll.headD [] = []) (hacc : pyTruthy s.acc_values = false) :
    run_step gradsAll d b s =
      ({ s with var_values := some [], acc_values := some ([] : List Tensor), step_count := s.step_count + 1 },
        stepMetric b d s, none) ∧
    pyTruthy (run_step gradsAll d b s).1.acc_values = false ∧
    (run_step gradsAll d b s).1.stores = s.stores := by
  have hsr : stepResult gradsAll s = ([], [], none) := by
    unfold stepResult effVars effAcc
    rw [hv, hg, hacc]
    simp [updateLoop]
  refine ⟨?_, ?_, ?_⟩
  · rw [run_step_unfold, hsr]
    simp [zipLoad_nil]
  · rw [run_step_acc, hsr]
    rfl
  · rw [run_step_stores_ok gradsAll d b s (by rw [hsr])]
    rw [hsr]
    simp [zipLoad_nil]

/-- Witness for C10 at a concrete input: two replicas with empty stores,
empty snapshot and an already-empty (hence still falsy) accumulator at
step count 3 — a later step, not the first. -/
theorem empty_params_step_witness :
    ((⟨[[], []], some [], some [], 3⟩ : TrainerState).var_values = some [] ∧
      (([[]] : List (List Tensor)).headD [] = []) ∧
      pyTruthy (⟨[[], []], some [], some [], 3⟩ : TrainerState).acc_values = false) ∧
    (run_step [[]] 0 true ⟨[[], []], some [], some [], 3⟩ =
        ({ (⟨[[], []], some [], some [], 3⟩ : TrainerState) with var_values := some [], acc_values := some ([] : List Tensor), step_count := (⟨[[], []], some [], some [], 3⟩ : TrainerState).step_count + 1 },
         stepMetric true 0 ⟨[[], []], some [], some [], 3⟩, none) ∧
      pyTruthy (run_step [[]] 0 true ⟨[[], []], some [], some [], 3⟩).1.acc_values =
        false ∧
      (run_step [[]] 0 true ⟨[[], []], some [], some [], 3⟩).1.stores = [[], []]) :=
  ⟨⟨by decide, by decide, by decide⟩,
    empty_params_step [[]] 0 true ⟨[[], []], some [], some [], 3⟩ (by decide)
      (by decide) (by decide)⟩

lemma runSteps_state_map (inputs1 inputs2 : List (List (List Tensor) × ℚ × Bool))
    (s : TrainerState)
    (h : inputs1.map (fun x => x.1) = inputs2.map (fun x => x.1)) :
    (runSteps inputs1 s).map (fun r => r.1) =
      (runSteps inputs2 s).map (fun r => r.1) := by
  induction inputs1 generalizing inputs2 s with
  | nil =>
      cases inputs2 with
      | nil => rfl
      | cons y ys => simp at h
  | cons x xs ih =>
      cases inputs2 with
      | nil => simp at h
      | cons y ys =>
          obtain ⟨g1, d1, b1⟩ := x
          obtain ⟨g2, d2, b2⟩ := y
          simp only [List.map_cons, List.cons.injEq] at h
          obtain ⟨hg, hrest⟩ := h
          subst hg
          obtain ⟨hstate, herr⟩ := run_step_state_indep g1 d1 d2 b1 b2 s
          simp only [runSteps]
          cases he : (run_step g1 d1 b1 s).2.2 with
          | some e =>
              have he2 : (run_step g1 d2 b2 s).2.2 = some e := herr ▸ he
              simp [he, he2, hstate]
          | none =>
              have he2 : (run_step g1 d2 b2 s).2.2 = none := herr ▸ he
              simp only [he, he2, List.map_cons, List.cons.injEq]
              refine ⟨hstate, ?_⟩
              rw [hstate]
              exact ih ys _ hrest

/-- C6: the step function is deterministic — two runs from the same
initial state fed the identical ordered sequence of GradientSets produce
identical state trajectories (and in particular identical parameter
snapshots), whatever the nondeterministic inputs (barrier wall-clock
durations, telemetry-sink availability) were on each run. -/
theorem trajectory_deterministic
    (inputs1 inputs2 : List (List (List Tensor) × ℚ × Bool)) (s : TrainerState)
    (h : inputs1.map (fun x => x.1) = inputs2.map (fun x => x.1)) :
    (runSteps inputs1 s).map (fun r => r.1) =
      (runSteps inputs2 s).map (fun r => r.1) ∧
    (runSteps inputs1 s).map (fun r => r.1.var_values) =
      (runSteps inputs2 s).map (fun r => r.1.var_values) := by
  have hmain := runSteps_state_map inputs1 inputs2 s h
  have hproj : ∀ l : List (TrainerState × Option (String × ℚ) × Option String),
      l.map (fun r => r.1.var_values) =
        (l.map (fun r => r.1)).map (fun t => t.var_values) := by
    intro l
    rw [List.map_map]
    rfl
  exact ⟨hmain, by rw [hproj, hproj, hmain]⟩

/-- Witness for C6 at a concrete input: two 2-step runs with identical
gradients but different durations and sink availability. -/
theorem trajectory_deterministic_witness :
    (([([[[1]]], (0 : ℚ), true), ([[[2]]], 1, true)] :
        List (List (List Tensor) × ℚ × Bool)).map (fun x => x.1) =
      ([([[[1]]], (5 : ℚ), false), ([[[2]]], 7, false)] :
        List (List (List Tensor) × ℚ × Bool)).map (fun x => x.1)) ∧
    ((runSteps [([[[1]]], (0 : ℚ), true), ([[[2]]], 1, true)]
          ⟨[[[1]]], some [[1]], none, 0⟩).map (fun r => r.1) =
      (runSteps [([[[1]]], (5 : ℚ), false), ([[[2]]], 7, false)]
          ⟨[[[1]]], some [[1]], none, 0⟩).map (fun r => r.1) ∧
    (runSteps [([[[1]]], (0 : ℚ), true), ([[[2]]], 1, true)]
          ⟨[[[1]]], some [[1]], none, 0⟩).map (fun r => r.1.var_values) =
      (runSteps [([[[1]]], (5 : ℚ), false), ([[[2]]], 7, false)]
          ⟨[[[1]]], some [[1]], none, 0⟩).map (fun r => r.1.var_values)) :=
  ⟨by decide,
    trajectory_deterministic [([[[1]]], (0 : ℚ), true), ([[[2]]], 1, true)]
      [([[[1]]], (5 : ℚ), false), ([[[2]]], 7, false)]
      ⟨[[[1]]], some [[1]], none, 0⟩ (by decide)⟩

lemma stepMetric_isSome (d : ℚ) (s : TrainerState) :
    (stepMetric true d s).isSome = ((s.step_count + 1) % 10 == 0) := by
  unfold stepMetric emit_scalar
  cases hc : ((s.step_count + 1) % 10 == 0) <;> simp [hc]

lemma runSteps_cadence (inputs : List (List (List Tensor) × ℚ × Bool)) :
    ∀ s : TrainerState, (∀ x ∈ inputs, x.2.2 = true) →
    ∀ k, k < (runSteps inputs s).length →
      ((runSteps inputs s).getD k (⟨[], none, none, 0⟩, none, none)).2.1.isSome =
        ((s.step_count + k + 1) % 10 == 0) ∧
      ((runSteps inputs s).getD k (⟨[], none, none, 0⟩, none, none)).1.step_count =
        s.step_count + k + 1 := by
  induction inputs with
  | nil =>
      intro s _ k hk
      simp [runSteps] at hk
  | cons x rest ih =>
      intro s hb k hk
      obtain ⟨g, dd, bb⟩ := x
      have hbx : bb = true := hb (g, dd, bb) (List.mem_cons_self _ _)
      subst hbx
      have hbr : ∀ y ∈ rest, y.2.2 = true := fun y hy =>
        hb y (List.mem_cons_of_mem _ hy)
      cases he : (run_step g dd true s).2.2 with
      | some e =>
          have hrs : runSteps ((g, dd, true) :: rest) s = [run_step g dd true s] := by
            simp [runSteps, he]
          rw [hrs] at hk ⊢
          have hk0 : k = 0 := by simpa using hk
          subst hk0
          simp only [List.getD_cons_zero]
          refine ⟨?_, ?_⟩
          · simp [run_step_metric, stepMetric_isSome]
          · simp [run_step_count]
      | none =>
          have hrs : runSteps ((g, dd, true) :: rest) s =
              run_step g dd true s :: runSteps rest (run_step g dd true s).1 := by
            simp [runSteps, he]
          rw [hrs] at hk ⊢
          cases k with
          | zero =>
              simp only [List.getD_cons_zero]
              refine ⟨?_, ?_⟩
              · simp [run_step_metric, stepMetric_isSome]
              · simp [run_step_count]
          | succ k =>
              simp only [List.getD_cons_succ]
              have hk' : k < (runSteps rest (run_step g dd true s).1).length := by
                simpa using hk
              obtain ⟨h1, h2⟩ := ih (run_step g dd true s).1 hbr k hk'
              rw [run_step_count] at h1 h2
              refine ⟨?_, ?_⟩
              · rw [h1,
                  show s.step_count + 1 + k + 1 = s.step_count + (k + 1) + 1 from
                    by omega]
              · rw [h2]
                omega

/-- C8: with the sink available throughout, the step-duration metric is
emitted exactly on the steps whose step count is a positive multiple of
10 and never on any other step; the counter starts at zero and the k-th
record of the run (0-indexed) carries step count `k + 1`. -/
theorem telemetry_cadence (inputs : List (List (List Tensor) × ℚ × Bool))
    (s : TrainerState) (hb : ∀ x ∈ inputs, x.2.2 = true)
    (h0 : s.step_count = 0) (k : Nat)
    (hk : k < (runSteps inputs s).length) :
    (((runSteps inputs s).getD k (⟨[], none, none, 0⟩, none, none)).2.1.isSome = true ↔
      ∃ m, 0 < m ∧ k + 1 = 10 * m) ∧
    ((runSteps inputs s).getD k (⟨[], none, none, 0⟩, none, none)).1.step_count =
      k + 1 := by
  obtain ⟨h1, h2⟩ := runSteps_cadence inputs s hb k hk
  rw [h0] at h1 h2
  simp only [Nat.zero_add] at h1 h2
  refine ⟨?_, h2⟩
  rw [h1]
  simp only [beq_iff_eq]
  constructor
  · intro hmod
    exact ⟨(k + 1) / 10, by omega, by omega⟩
  · rintro ⟨m, hm, hkm⟩
    omega

/-- Witness for C8 at a concrete input: a one-step run with the sink
available; its single record carries step count 1 and no metric
(1 is not a positive multiple of 10). -/
theorem telemetry_cadence_witness :
    ((∀ x ∈ ([([[[1]]], (0 : ℚ), true)] : List (List (List Tensor) × ℚ × Bool)),
        x.2.2 = true) ∧
      (⟨[[[1]]], some [[1]], some [[2]], 0⟩ : TrainerState).step_count = 0 ∧
      0 < (runSteps [([[[1]]], (0 : ℚ), true)]
        ⟨[[[1]]], some [[1]], some [[2]], 0⟩).length) ∧
    (((runSteps [([[[1]]], (0 : ℚ), true)]
          ⟨[[[1]]], some [[1]], some [[2]], 0⟩).getD 0
          (⟨[], none, none, 0⟩, none, none)).2.1.isSome = true ↔
        ∃ m, 0 < m ∧ 0 + 1 = 10 * m) ∧
      ((runSteps [([[[1]]], (0 : ℚ), true)]
          ⟨[[[1]]], some [[1]], some [[2]], 0⟩).getD 0
          (⟨[], none, none, 0⟩, none, none)).1.step_count = 0 + 1 :=
  ⟨⟨by decide, by decide, by decide⟩,
    telemetry_cadence [([[[1]]], (0 : ℚ), true)]
      ⟨[[[1]]], some [[1]], some [[2]], 0⟩ (by decide) (by decide) 0 (by decide)⟩
